import Mathlib

/-!
Verification of the PokeAPI catalog viewer (`pokeapi.js`).

This file gives a shallow embedding of the core logic of `pokeapi.js`:
the in-memory detail cache, `fetchDetailSafely`, the concurrency-limited
batch fetcher `fetchManyDetails` (both as a deterministic sequential
run and as a small-step worker-pool transition system), the pager
(`loadMorePage`, `fetchListPage`, `fetchTypeCatalog`,
`runQueryFromControls`) and the sort pipeline (`sortPokemons`), together
with theorems about their behaviour.

Network I/O is modelled by oracles: `Api.detail` maps a normalized
lookup key to `some` detail (a successful fetch of well-formed JSON) or
`none` (any fetch failure, e.g. HTTP 404 thrown by `fetchJSON`);
`Api.listing` and `Api.typeMembers` model the `/pokemon` and
`/type/{name}` endpoints on their success path (the page-level `catch`
branch of `loadMorePage` is outside the claims considered here).
DOM side effects that matter to the claims (requests issued, toasts,
rendered cards, the empty-state marker) are recorded in an event log.
-/

namespace Pokeapi

/-- The type reference inside one element of `detail.types`
(`t.type.name` in the source). -/
structure TypeRef where
  name : String
deriving DecidableEq, Repr

/-- One element of `detail.types` (`{ type: { name } }` in the API JSON). -/
structure TypeSlot where
  type : TypeRef
deriving DecidableEq, Repr

/-- An entity detail record: the fields of the PokeAPI detail JSON that
the core logic of `pokeapi.js` reads (id, name, types). -/
structure Detail where
  id : Nat
  name : String
  types : List TypeSlot
deriving DecidableEq, Repr

/-- Model of `String.prototype.toLowerCase` (character-wise lowering;
the identifiers involved are ASCII). -/
def jsToLower (s : String) : String :=
  ⟨s.data.map Char.toLower⟩

/-- JS whitespace as far as `String.prototype.trim` is concerned, for
the character set that can occur in the inputs here. -/
def isJsSpace (c : Char) : Bool :=
  c == ' ' || c == '\t' || c == '\n' || c == '\r'

/-- Model of `String.prototype.trim`: strip leading and trailing
whitespace. -/
def jsTrim (s : String) : String :=
  ⟨((s.data.dropWhile isJsSpace).reverse.dropWhile isJsSpace).reverse⟩

/-- The normalized cache key of `fetchDetailSafely`:
`String(nameOrId).toLowerCase().trim()`. -/
def normKey (s : String) : String :=
  jsTrim (jsToLower s)

/-- The in-memory cache (`const cache = new Map()` in the source),
modelled as an association list where `cacheSet` prepends; lookup takes
the first (most recent) binding, matching `Map.set` overwrite semantics
as observed through `get`/`has`. -/
abbrev Cache := List (String × Detail)

/-- `cache.get(k)` / `cache.has(k)`. -/
def cacheGet (c : Cache) (k : String) : Option Detail :=
  (c.find? (fun p => p.1 == k)).map Prod.snd

/-- `cache.set(k, d)`. -/
def cacheSet (c : Cache) (k : String) (d : Detail) : Cache :=
  (k, d) :: c

/-- `fetchDetailSafely(nameOrId)` from the source: normalize the key
(`String(nameOrId).toLowerCase().trim()`), return a cache hit directly;
otherwise fetch; on success insert under the lookup key, the stringified
id and the lowercased name and return the detail; on failure return the
`null` sentinel (here `none`) and leave the cache unchanged.  The result
is (returned detail, cache afterwards, whether a network request was
issued). -/
def fetchDetailSafely (oracle : String → Option Detail) (c : Cache) (nameOrId : String) :
    Option Detail × Cache × Bool :=
  let key := normKey nameOrId
  match cacheGet c key with
  | some d => (some d, c, false)
  | none =>
    match oracle key with
    | some data =>
        (some data,
         cacheSet (cacheSet (cacheSet c key data) (toString data.id) data)
           (jsToLower data.name) data,
         true)
    | none => (none, c, true)

/-- Model of `String.prototype.localeCompare` on the lowercase-ASCII
names served by the API, for which default-locale order agrees with
code-point order. -/
def localeCompare (a b : String) : Int :=
  if a < b then -1 else if a = b then 0 else 1

/-- `sortPokemons(arr, sortBy)` from the source: copy the array and sort
it in place with the comparator selected by `sortBy`; JS `Array.sort` is
a stable sort, modelled by a stable sort (`List.insertionSort`) on the
comparator's at-most-or-equal relation.  Unrecognized keys fall through
the `switch` and return the copy unchanged. -/
def sortPokemons (arr : List Detail) (sortBy : String) : List Detail :=
  match sortBy with
  | "id-asc" => arr.insertionSort (fun a b => a.id ≤ b.id)
  | "id-desc" => arr.insertionSort (fun a b => b.id ≤ a.id)
  | "name-asc" => arr.insertionSort (fun a b => localeCompare a.name b.name ≤ 0)
  | "name-desc" => arr.insertionSort (fun a b => localeCompare b.name a.name ≤ 0)
  | _ => arr

/-- Observable effects of a page round: network requests issued, toasts
shown, cards appended, and the empty-state marker. -/
inductive Event
  | listRequest (offset limit : Nat)
  | typeCatalogRequest (typeName : String)
  | detailRequest (key : String)
  | infoToast (msg : String)
  | cardRendered (id : Nat)
  | emptyState
deriving DecidableEq, Repr

/-- The deterministic sequential run of `fetchManyDetails(names)`: the
schedule of the worker pool in which every fetch settles before the next
is drawn, so results arrive in input order.  Each identifier goes
through `fetchDetailSafely`; `null` results are dropped
(`if (d) results.push(d)`).  Returns (results, cache afterwards, events). -/
def fetchManyDetails (oracle : String → Option Detail) :
    Cache → List String → List Detail × Cache × List Event
  | c, [] => ([], c, [])
  | c, n :: rest =>
    let one := fetchDetailSafely oracle c n
    let restR := fetchManyDetails oracle one.2.1 rest
    (one.1.toList ++ restR.1, restR.2.1,
     (if one.2.2 then [Event.detailRequest (normKey n)] else []) ++ restR.2.2)

/-- `CONCURRENCY` from the source: the maximum number of parallel
detail requests of the batch fetcher. -/
def CONCURRENCY : Nat := 12

/-- What one worker of `fetchManyDetails` has determined by the time it
is spawned on identifier `name`: `fetchDetailSafely` checks the cache
synchronously at call time, so the returned value and whether a fresh
network request was issued are fixed at spawn; the cache inserts of a
fresh success are applied when the worker settles. -/
structure Flight where
  name : String
  result : Option Detail
  fresh : Bool
deriving DecidableEq, Repr

/-- Spawn a worker on identifier `name` against the current cache. -/
def spawnFlight (oracle : String → Option Detail) (c : Cache) (name : String) : Flight :=
  match cacheGet c (normKey name) with
  | some d => { name := name, result := some d, fresh := false }
  | none => { name := name, result := oracle (normKey name), fresh := true }

/-- The cache inserts performed when a worker settles: a fresh successful
fetch inserts under the normalized lookup key, the stringified id and
the lowercased name; a cache hit or a failed fetch inserts nothing. -/
def settleCache (c : Cache) (f : Flight) : Cache :=
  match f.fresh, f.result with
  | true, some data =>
      cacheSet (cacheSet (cacheSet c (normKey f.name) data) (toString data.id) data)
        (jsToLower data.name) data
  | _, _ => c

/-- The state of the `fetchManyDetails` worker pool: the work queue, the
in-flight workers (`active` is `flights.length`), the aggregated
`results` array, the cache, and a log of the settled identifiers with
the detail each one resolved to (the ghost record of what
`fetchDetailSafely` returned per input). -/
structure PoolState where
  queue : List String
  flights : List Flight
  results : List Detail
  cache : Cache
  log : List (String × Option Detail)
deriving Repr

/-- `fetchManyDetails` seeds the queue with all input identifiers and
starts with no worker active and an empty results array. -/
def initPool (names : List String) (c : Cache) : PoolState :=
  { queue := names, flights := [], results := [], cache := c, log := [] }

/-- One scheduler step of the `fetchManyDetails` worker pool.  `spawn`
is one iteration of the `while (active < CONCURRENCY && queue.length > 0)`
loop of `next()`: it draws the head of the queue and starts a fetch,
guarded by `active < CONCURRENCY`.  `settle` is the continuation of any
in-flight worker: it pushes the non-null result, applies the cache
inserts, decrements `active` and records the outcome; completion order
is arbitrary, so any in-flight worker may settle. -/
inductive PoolStep (oracle : String → Option Detail) : PoolState → PoolState → Prop
  | spawn (s : PoolState) (n : String) (q' : List String)
      (hq : s.queue = n :: q') (hc : s.flights.length < CONCURRENCY) :
      PoolStep oracle s
        { s with queue := q', flights := s.flights ++ [spawnFlight oracle s.cache n] }
  | settle (s : PoolState) (f : Flight) (l₁ l₂ : List Flight)
      (hf : s.flights = l₁ ++ f :: l₂) :
      PoolStep oracle s
        { queue := s.queue
          flights := l₁ ++ l₂
          results := s.results ++ f.result.toList
          cache := settleCache s.cache f
          log := s.log ++ [(f.name, f.result)] }

/-- Reachability in the worker-pool transition system. -/
def PoolReach (oracle : String → Option Detail) : PoolState → PoolState → Prop :=
  Relation.ReflTransGen (PoolStep oracle)

/-- The promise of `fetchManyDetails` resolves exactly when the queue is
empty and no worker is active (`if (queue.length === 0 && active === 0) resolve(results)`). -/
def resolvedState (s : PoolState) : Bool :=
  s.queue.isEmpty && s.flights.isEmpty

/-! ### The pager -/

/-- One `{name, url}` reference as returned by the listing and type
endpoints and stored in `state.typeCatalog`. -/
structure CatalogEntry where
  name : String
  url : String
deriving DecidableEq, Repr

/-- One element of the `/type/{name}` response's `pokemon` array
(`{ pokemon: { name, url } }`). -/
structure TypePokemon where
  pokemon : CatalogEntry
deriving DecidableEq, Repr

/-- `state.mode` in the source: `'list' | 'type' | 'search'`. -/
inductive Mode
  | list
  | type
  | search
deriving DecidableEq, Repr

/-- The remote API on its success path: `listing limit offset` is the
`results` array of `GET /pokemon?limit=&offset=`; `typeMembers t` the
`pokemon` array of `GET /type/{t}`; `detail k` the detail JSON of
`GET /pokemon/{k}` or `none` for any fetch failure. -/
structure Api where
  listing : Nat → Nat → List CatalogEntry
  typeMembers : String → List TypePokemon
  detail : String → Option Detail

/-- The `state` object of the source. -/
structure QueryState where
  mode : Mode
  offset : Nat
  limit : Nat
  hasMore : Bool
  currentQ : String
  currentType : String
  currentSort : String
  typeCatalog : List CatalogEntry
  typeCursor : Nat
deriving DecidableEq, Repr

/-- The outcome of one page round of `loadMorePage`: the state and cache
afterwards, the batch that was rendered, and the event log. -/
structure RoundResult where
  state : QueryState
  cache : Cache
  batch : List Detail
  events : List Event
deriving Repr

/-- `fetchListPage(offset, limit)` from the source: request the listing
page, extract the names, and resolve them through the batch fetcher. -/
def fetchListPage (api : Api) (c : Cache) (offset limit : Nat) :
    List Detail × Cache × List Event :=
  let names := (api.listing limit offset).map CatalogEntry.name
  let r := fetchManyDetails api.detail c names
  (r.1, r.2.1, Event.listRequest offset limit :: r.2.2)

/-- `fetchTypeCatalog(typeName)` from the source: one request to the
type endpoint, mapped to `{name, url}` entries. -/
def fetchTypeCatalog (api : Api) (typeName : String) : List CatalogEntry × List Event :=
  ((api.typeMembers typeName).map (fun p => { name := p.pokemon.name, url := p.pokemon.url }),
   [Event.typeCatalogRequest typeName])

/-- The message of the informational toast shown when a searched entity
does not have the active type filter's type. -/
def typeMismatchMsg (q t : String) : String :=
  "\"" ++ q ++ "\" is not of type \"" ++ t ++ "\"."

/-- The tail of `loadMorePage` common to all modes: clear skeletons; on
an empty batch render the empty-state marker on a first page and stop;
otherwise sort the batch and append one card per detail. -/
def finishRound (s : QueryState) (c : Cache) (batch : List Detail)
    (evs : List Event) (isFirstPage : Bool) : RoundResult :=
  if batch.length = 0 then
    { state := s, cache := c, batch := []
      events := evs ++ (if isFirstPage then [Event.emptyState] else []) }
  else
    let sorted := sortPokemons batch s.currentSort
    { state := s, cache := c, batch := sorted
      events := evs ++ sorted.map (fun d => Event.cardRendered d.id) }

/-- `loadMorePage(isFirstPage)` from the source, on the path where the
page-level fetches succeed.  List mode: fetch a listing page, advance
`offset` by `limit`, set `hasMore = (batch.length === limit)`.  Type
mode: fetch the full catalog once if none is stored, slice the stored
catalog at the cursor, advance the cursor by the slice length, set
`hasMore = cursor < catalog.length`, resolve the slice through the
batch fetcher.  Search mode: one `fetchDetailSafely` lookup; with an
active type filter a resolved entity lacking that type yields an empty
batch and an informational toast; `hasMore = false`. -/
def loadMorePage (api : Api) (c : Cache) (s : QueryState) (isFirstPage : Bool) :
    RoundResult :=
  match s.mode with
  | Mode.list =>
    let r := fetchListPage api c s.offset s.limit
    finishRound
      { s with offset := s.offset + s.limit, hasMore := decide (r.1.length = s.limit) }
      r.2.1 r.1 r.2.2 isFirstPage
  | Mode.type =>
    let cat :=
      if s.typeCatalog.length = 0 then
        ((fetchTypeCatalog api s.currentType).1, 0, (fetchTypeCatalog api s.currentType).2)
      else (s.typeCatalog, s.typeCursor, ([] : List Event))
    let slice := (cat.1.drop cat.2.1).take s.limit
    let cursor' := cat.2.1 + slice.length
    let r := fetchManyDetails api.detail c (slice.map CatalogEntry.name)
    finishRound
      { s with typeCatalog := cat.1, typeCursor := cursor'
               hasMore := decide (cursor' < cat.1.length) }
      r.2.1 r.1 (cat.2.2 ++ r.2.2) isFirstPage
  | Mode.search =>
    let r := fetchDetailSafely api.detail c s.currentQ
    let evs0 := if r.2.2 then [Event.detailRequest (normKey s.currentQ)] else []
    let br : List Detail × List Event :=
      match r.1 with
      | some p =>
        if s.currentType ≠ "" then
          if p.types.any (fun t => t.type.name == s.currentType) then ([p], [])
          else ([], [Event.infoToast (typeMismatchMsg s.currentQ s.currentType)])
        else ([p], [])
      | none => ([], [])
    finishRound { s with hasMore := false } r.2.1 br.1 (evs0 ++ br.2) isFirstPage

/-- `runQueryFromControls()` from the source: read the controls
(`(value || '').trim().toLowerCase()` for the query and the type filter,
`value || 'id-asc'` for the sort), pick the mode from the active
filters, reset pagination (`offset = 0`, empty catalog, cursor 0,
`hasMore = true`), clear the grid and load the first page. -/
def runQueryFromControls (api : Api) (c : Cache) (s : QueryState)
    (qValue typeValue sortValue : String) : RoundResult :=
  let cq := jsToLower (jsTrim qValue)
  let ct := jsToLower (jsTrim typeValue)
  let cs := if sortValue = "" then "id-asc" else sortValue
  let mode := if cq ≠ "" then Mode.search else if ct ≠ "" then Mode.type else Mode.list
  loadMorePage api c
    { s with currentQ := cq, currentType := ct, currentSort := cs, mode := mode
             offset := 0, typeCatalog := [], typeCursor := 0, hasMore := true }
    true

/-! ### Event counting -/

/-- Number of category-membership (`/type/{name}`) requests in an event log. -/
def countTypeCatalogRequests (evs : List Event) : Nat :=
  (evs.filter (fun e => match e with | Event.typeCatalogRequest _ => true | _ => false)).length

/-- Number of informational toasts in an event log. -/
def countInfoToasts (evs : List Event) : Nat :=
  (evs.filter (fun e => match e with | Event.infoToast _ => true | _ => false)).length

/-- Number of rendered cards in an event log. -/
def countCards (evs : List Event) : Nat :=
  (evs.filter (fun e => match e with | Event.cardRendered _ => true | _ => false)).length

/-! ### Sample data for concrete evaluations -/

/-- A sample detail record. -/
def pikachu : Detail :=
  { id := 25, name := "pikachu", types := [⟨⟨"electric"⟩⟩] }

/-- A sample detail record. -/
def bulbasaur : Detail :=
  { id := 1, name := "bulbasaur", types := [⟨⟨"grass"⟩⟩, ⟨⟨"poison"⟩⟩] }

/-- A small concrete API environment for witnesses. -/
def sampleApi : Api :=
  { listing := fun _limit offset => if offset = 0 then [⟨"bulbasaur", "u1"⟩] else []
    typeMembers := fun t => if t = "grass" then [⟨⟨"bulbasaur", "u1"⟩⟩] else []
    detail := fun k =>
      if k = "bulbasaur" then some bulbasaur
      else if k = "pikachu" then some pikachu
      else if k = "25" then some pikachu
      else none }

/-- A sample list-mode query state (`pageSize` 2). -/
def sListState : QueryState :=
  { mode := Mode.list, offset := 0, limit := 2, hasMore := true, currentQ := ""
    currentType := "", currentSort := "id-asc", typeCatalog := [], typeCursor := 0 }

/-- A sample type-mode query state. -/
def sTypeState : QueryState :=
  { sListState with mode := Mode.type, currentType := "grass" }

/-- A sample search-mode query state with an active type filter that the
searched entity does not have. -/
def sSearchState : QueryState :=
  { sListState with mode := Mode.search, currentQ := "pikachu", currentType := "grass" }

/-- A sample type-mode query state whose catalog is already stored. -/
def sTypeStateLoaded : QueryState :=
  { sTypeState with typeCatalog := [⟨"bulbasaur", "u1"⟩], typeCursor := 0, limit := 1 }

end Pokeapi

namespace Pokeapi

/-! ### Helper lemmas -/

theorem finishRound_state (s : QueryState) (c : Cache) (b : List Detail)
    (e : List Event) (fp : Bool) : (finishRound s c b e fp).state = s := by
  unfold finishRound
  split <;> rfl

theorem sortPokemons_perm (b : List Detail) (k : String) : (sortPokemons b k).Perm b := by
  unfold sortPokemons
  split
  any_goals exact List.perm_insertionSort _ _
  exact List.Perm.refl _

theorem sortPokemons_length (b : List Detail) (k : String) :
    (sortPokemons b k).length = b.length :=
  (sortPokemons_perm b k).length_eq

theorem finishRound_batch_length (s : QueryState) (c : Cache) (b : List Detail)
    (e : List Event) (fp : Bool) : (finishRound s c b e fp).batch.length = b.length := by
  unfold finishRound
  split
  next h => simpa using h.symm
  next h => exact sortPokemons_length b s.currentSort

theorem loadMorePage_mode (api : Api) (c : Cache) (s : QueryState) (fp : Bool) :
    (loadMorePage api c s fp).state.mode = s.mode := by
  cases hm : s.mode <;> simp [loadMorePage, hm, finishRound_state]

theorem jsToLower_eq_empty_iff (s : String) : jsToLower s = "" ↔ s = "" := by
  constructor <;> intro h
  · apply String.ext
    have hd := congrArg String.data h
    simpa [jsToLower] using hd
  · subst h
    rfl

theorem localeCompare_nonpos (a b : String) : localeCompare a b ≤ 0 ↔ a ≤ b := by
  unfold localeCompare
  split_ifs with h1 h2
  · exact iff_of_true (by omega) (le_of_lt h1)
  · exact iff_of_true (by omega) (le_of_eq h2)
  · exact iff_of_false (by omega) (fun hab => h1 (lt_of_le_of_ne hab h2))

end Pokeapi

namespace Pokeapi

theorem sortPokemons_idAsc (arr : List Detail) :
    sortPokemons arr "id-asc" = arr.insertionSort (fun a b => a.id ≤ b.id) := rfl

theorem sortPokemons_idDesc (arr : List Detail) :
    sortPokemons arr "id-desc" = arr.insertionSort (fun a b => b.id ≤ a.id) := rfl

theorem sortPokemons_nameAsc (arr : List Detail) :
    sortPokemons arr "name-asc"
      = arr.insertionSort (fun a b => localeCompare a.name b.name ≤ 0) := rfl

theorem sortPokemons_nameDesc (arr : List Detail) :
    sortPokemons arr "name-desc"
      = arr.insertionSort (fun a b => localeCompare b.name a.name ≤ 0) := rfl

/-- Claim C8: `sortPokemons` is non-mutating (a pure function of its
input, returning a new sequence that is a permutation of it); for each
of the four supported keys the output is sorted by that key's
comparator; applying it to a sequence already sorted by the key is a
stable no-op; an unrecognized key returns the input order unchanged. -/
theorem sortPokemons_spec (arr : List Detail) (k : String) :
    (sortPokemons arr k).Perm arr
    ∧ List.Sorted (fun a b => a.id ≤ b.id) (sortPokemons arr "id-asc")
    ∧ List.Sorted (fun a b => b.id ≤ a.id) (sortPokemons arr "id-desc")
    ∧ List.Sorted (fun a b => localeCompare a.name b.name ≤ 0) (sortPokemons arr "name-asc")
    ∧ List.Sorted (fun a b => localeCompare b.name a.name ≤ 0) (sortPokemons arr "name-desc")
    ∧ (List.Sorted (fun a b => a.id ≤ b.id) arr → sortPokemons arr "id-asc" = arr)
    ∧ (List.Sorted (fun a b => b.id ≤ a.id) arr → sortPokemons arr "id-desc" = arr)
    ∧ (List.Sorted (fun a b => localeCompare a.name b.name ≤ 0) arr →
        sortPokemons arr "name-asc" = arr)
    ∧ (List.Sorted (fun a b => localeCompare b.name a.name ≤ 0) arr →
        sortPokemons arr "name-desc" = arr)
    ∧ (k ∉ (["id-asc", "id-desc", "name-asc", "name-desc"] : List String) →
        sortPokemons arr k = arr) := by
  haveI : IsTotal Detail (fun a b => a.id ≤ b.id) := ⟨fun a b => Nat.le_total a.id b.id⟩
  haveI : IsTrans Detail (fun a b => a.id ≤ b.id) := ⟨fun _ _ _ hab hbc => le_trans hab hbc⟩
  haveI : IsTotal Detail (fun a b => b.id ≤ a.id) := ⟨fun a b => Nat.le_total b.id a.id⟩
  haveI : IsTrans Detail (fun a b => b.id ≤ a.id) := ⟨fun _ _ _ hab hbc => le_trans hbc hab⟩
  haveI : IsTotal Detail (fun a b => localeCompare a.name b.name ≤ 0) := ⟨fun a b => by
    rcases le_total a.name b.name with h | h
    · exact Or.inl ((localeCompare_nonpos _ _).mpr h)
    · exact Or.inr ((localeCompare_nonpos _ _).mpr h)⟩
  haveI : IsTrans Detail (fun a b => localeCompare a.name b.name ≤ 0) :=
    ⟨fun _ _ _ hab hbc => (localeCompare_nonpos _ _).mpr
      (le_trans ((localeCompare_nonpos _ _).mp hab) ((localeCompare_nonpos _ _).mp hbc))⟩
  haveI : IsTotal Detail (fun a b => localeCompare b.name a.name ≤ 0) := ⟨fun a b => by
    rcases le_total b.name a.name with h | h
    · exact Or.inl ((localeCompare_nonpos _ _).mpr h)
    · exact Or.inr ((localeCompare_nonpos _ _).mpr h)⟩
  haveI : IsTrans Detail (fun a b => localeCompare b.name a.name ≤ 0) :=
    ⟨fun _ _ _ hab hbc => (localeCompare_nonpos _ _).mpr
      (le_trans ((localeCompare_nonpos _ _).mp hbc) ((localeCompare_nonpos _ _).mp hab))⟩
  refine ⟨sortPokemons_perm arr k, ?_, ?_, ?_, ?_, ?_, ?_, ?_, ?_, ?_⟩
  · rw [sortPokemons_idAsc]; exact List.sorted_insertionSort _ arr
  · rw [sortPokemons_idDesc]; exact List.sorted_insertionSort _ arr
  · rw [sortPokemons_nameAsc]; exact List.sorted_insertionSort _ arr
  · rw [sortPokemons_nameDesc]; exact List.sorted_insertionSort _ arr
  · intro h; rw [sortPokemons_idAsc]; exact h.insertionSort_eq
  · intro h; rw [sortPokemons_idDesc]; exact h.insertionSort_eq
  · intro h; rw [sortPokemons_nameAsc]; exact h.insertionSort_eq
  · intro h; rw [sortPokemons_nameDesc]; exact h.insertionSort_eq
  · intro hk
    unfold sortPokemons
    split
    any_goals simp_all

/-- Witness for C8 at concrete inputs: a permutation result, a stable
no-op on an id-sorted list, and an unrecognized key leaving the input
unchanged. -/
theorem sortPokemons_spec_witness :
    (sortPokemons [pikachu, bulbasaur] "id-asc").Perm [pikachu, bulbasaur]
    ∧ sortPokemons [bulbasaur, pikachu] "id-asc" = [bulbasaur, pikachu]
    ∧ sortPokemons [pikachu, bulbasaur] "bogus" = [pikachu, bulbasaur] := by
  refine ⟨(sortPokemons_spec [pikachu, bulbasaur] "id-asc").1, ?_, ?_⟩
  · exact (sortPokemons_spec [bulbasaur, pikachu] "id-asc").2.2.2.2.2.1 (by decide)
  · exact (sortPokemons_spec [pikachu, bulbasaur] "bogus").2.2.2.2.2.2.2.2.2 (by decide)

/-- Claim C3: the query mode picked at submission is a pure function of
the filter inputs: non-empty trimmed search text gives search mode,
else a non-empty category gives type mode, else list mode. -/
theorem runQueryFromControls_mode_spec (api : Api) (c : Cache) (s : QueryState)
    (qv tv sv : String) :
    (runQueryFromControls api c s qv tv sv).state.mode =
      (if jsTrim qv ≠ "" then Mode.search
       else if jsTrim tv ≠ "" then Mode.type
       else Mode.list) := by
  simp only [runQueryFromControls, loadMorePage_mode]
  by_cases hq : jsTrim qv = "" <;> by_cases ht : jsTrim tv = "" <;>
    simp [hq, ht, jsToLower_eq_empty_iff]

end Pokeapi

namespace Pokeapi

theorem cacheGet_cacheSet_self (c : Cache) (k : String) (d : Detail) :
    cacheGet (cacheSet c k d) k = some d := by
  simp [cacheGet, cacheSet, List.find?_cons_of_pos]

theorem cacheGet_cacheSet_ne (c : Cache) (k q : String) (d : Detail) (h : q ≠ k) :
    cacheGet (cacheSet c k d) q = cacheGet c q := by
  unfold cacheGet cacheSet
  rw [List.find?_cons_of_neg]
  simp [Ne.symm h]

theorem cacheGet_three (c : Cache) (k1 k2 k3 q : String) (d : Detail)
    (h : q = k1 ∨ q = k2 ∨ q = k3) :
    cacheGet (cacheSet (cacheSet (cacheSet c k1 d) k2 d) k3 d) q = some d := by
  by_cases h3 : q = k3
  · subst h3; exact cacheGet_cacheSet_self _ _ _
  · rw [cacheGet_cacheSet_ne _ _ _ _ h3]
    by_cases h2 : q = k2
    · subst h2; exact cacheGet_cacheSet_self _ _ _
    · rw [cacheGet_cacheSet_ne _ _ _ _ h2]
      rcases h with h1 | h2' | h3'
      · subst h1; exact cacheGet_cacheSet_self _ _ _
      · exact absurd h2' h2
      · exact absurd h3' h3

/-- Claim C7: `fetchDetailSafely` never propagates a fetch failure: a
cache hit is returned without a request; a failed fetch returns the
`null` sentinel with the cache unchanged; a successful fetch returns
the detail, inserts it under the three aliases (normalized lookup key,
stringified id, lowercased canonical name), and afterwards a lookup by
any key normalizing to one of those aliases hits the cache, returning
the detail with no new request. -/
theorem fetchDetailSafely_spec (oracle : String → Option Detail) (c : Cache) (key : String) :
    (∀ d, cacheGet c (normKey key) = some d →
        fetchDetailSafely oracle c key = (some d, c, false))
    ∧ (cacheGet c (normKey key) = none → oracle (normKey key) = none →
        fetchDetailSafely oracle c key = (none, c, true))
    ∧ (∀ d, cacheGet c (normKey key) = none → oracle (normKey key) = some d →
        fetchDetailSafely oracle c key
            = (some d,
               cacheSet (cacheSet (cacheSet c (normKey key) d) (toString d.id) d)
                 (jsToLower d.name) d,
               true)
          ∧ ∀ q, normKey q = normKey key ∨ normKey q = toString d.id
                ∨ normKey q = jsToLower d.name →
              fetchDetailSafely oracle (fetchDetailSafely oracle c key).2.1 q
                = (some d, (fetchDetailSafely oracle c key).2.1, false)) := by
  refine ⟨?_, ?_, ?_⟩
  · intro d hd
    simp [fetchDetailSafely, hd]
  · intro h1 h2
    simp [fetchDetailSafely, h1, h2]
  · intro d h1 h2
    have heq : fetchDetailSafely oracle c key
        = (some d,
           cacheSet (cacheSet (cacheSet c (normKey key) d) (toString d.id) d)
             (jsToLower d.name) d,
           true) := by
      simp [fetchDetailSafely, h1, h2]
    refine ⟨heq, ?_⟩
    intro q hq
    rw [heq]
    have hget : cacheGet
        (cacheSet (cacheSet (cacheSet c (normKey key) d) (toString d.id) d)
          (jsToLower d.name) d) (normKey q) = some d :=
      cacheGet_three _ _ _ _ _ _ hq
    simp [fetchDetailSafely, hget]

/-- Witness for C7 at concrete inputs: a failed fetch returns the
sentinel and leaves the empty cache empty; a successful fetch of
`" PIKACHU "` inserts the three aliases; a follow-up lookup by the
stringified id `"25"` hits the cache with no request. -/
theorem fetchDetailSafely_spec_witness :
    fetchDetailSafely sampleApi.detail [] "missingno" = (none, [], true)
    ∧ fetchDetailSafely sampleApi.detail [] " PIKACHU "
        = (some pikachu,
           cacheSet (cacheSet (cacheSet [] (normKey " PIKACHU ") pikachu)
             (toString pikachu.id) pikachu) (jsToLower pikachu.name) pikachu,
           true)
    ∧ fetchDetailSafely sampleApi.detail
          (fetchDetailSafely sampleApi.detail [] " PIKACHU ").2.1 "25"
        = (some pikachu, (fetchDetailSafely sampleApi.detail [] " PIKACHU ").2.1, false) := by
  refine ⟨?_, ?_, ?_⟩
  · exact (fetchDetailSafely_spec sampleApi.detail [] "missingno").2.1 (by decide) (by decide)
  · exact ((fetchDetailSafely_spec sampleApi.detail [] " PIKACHU ").2.2 pikachu
      (by decide) (by decide)).1
  · exact ((fetchDetailSafely_spec sampleApi.detail [] " PIKACHU ").2.2 pikachu
      (by decide) (by decide)).2 "25" (Or.inr (Or.inl (by decide)))

end Pokeapi

namespace Pokeapi

theorem spawnFlight_name (oracle : String → Option Detail) (c : Cache) (n : String) :
    (spawnFlight oracle c n).name = n := by
  unfold spawnFlight
  split <;> rfl

theorem pool_inv (oracle : String → Option Detail) (names : List String) (c : Cache)
    (s : PoolState) (h : PoolReach oracle (initPool names c) s) :
    s.results = s.log.filterMap Prod.snd
    ∧ (s.queue ++ s.flights.map Flight.name ++ s.log.map Prod.fst).Perm names := by
  induction h with
  | refl => exact ⟨rfl, by simp [initPool]⟩
  | tail hreach hstep ih =>
    obtain ⟨ih1, ih2⟩ := ih
    cases hstep with
    | spawn n q' hq hc =>
      refine ⟨ih1, ?_⟩
      refine List.Perm.trans ?_ ih2
      rw [List.perm_iff_count]
      intro a
      simp [hq, List.count_append, List.count_cons, spawnFlight_name]
      omega
    | settle f l₁ l₂ hf =>
      constructor
      · cases hr : f.result <;> simp [List.filterMap_append, ih1, hr]
      · refine List.Perm.trans ?_ ih2
        rw [List.perm_iff_count]
        intro a
        simp [hf, List.count_append, List.count_cons]
        omega

/-- Claim C2: at every reachable point of an execution of
`fetchManyDetails`, the number of detail fetches in flight (`active`)
never exceeds `CONCURRENCY` = 12: the spawn loop is guarded by
`active < CONCURRENCY` and settling only decreases `active`. -/
theorem fetchManyDetails_concurrency_bound (oracle : String → Option Detail)
    (names : List String) (c : Cache) (s : PoolState)
    (h : PoolReach oracle (initPool names c) s) :
    s.flights.length ≤ CONCURRENCY := by
  induction h with
  | refl => simp [initPool]
  | tail hreach hstep ih =>
    cases hstep with
    | spawn n q' hq hc =>
      simp only [List.length_append, List.length_cons, List.length_nil]
      omega
    | settle f l₁ l₂ hf =>
      rw [hf] at ih
      simp only [List.length_append, List.length_cons] at ih ⊢
      omega

/-- Witness for C2: the initial pool state itself is reachable, and its
active count is within the bound. -/
theorem fetchManyDetails_concurrency_bound_witness :
    (initPool ["bulbasaur"] []).flights.length ≤ CONCURRENCY :=
  fetchManyDetails_concurrency_bound (fun _ => none) ["bulbasaur"] []
    (initPool ["bulbasaur"] []) Relation.ReflTransGen.refl

/-- Claim C1: when the pool of `fetchManyDetails` reaches the resolved
configuration (empty queue, no active worker — the point where
`resolve(results)` fires), the delivered `results` array is exactly the
details that `fetchDetailSafely` returned per input, in settle order:
identifiers that resolved to the `null` sentinel are dropped and
contribute no entry, and every input identifier was resolved exactly
once (the log's identifiers are a permutation of the inputs). -/
theorem fetchManyDetails_result_set (oracle : String → Option Detail)
    (names : List String) (c : Cache) (s : PoolState)
    (h : PoolReach oracle (initPool names c) s)
    (hres : resolvedState s = true) :
    s.results = s.log.filterMap Prod.snd
    ∧ (s.log.map Prod.fst).Perm names := by
  obtain ⟨h1, h2⟩ := pool_inv oracle names c s h
  have hqfl : s.queue = [] ∧ s.flights = [] := by
    simpa [resolvedState] using hres
  refine ⟨h1, ?_⟩
  rw [hqfl.1, hqfl.2] at h2
  simpa using h2

end Pokeapi

namespace Pokeapi

/-- Witness for C1: a concrete two-step pool run on the single
identifier `"missingno"` (whose fetch fails) reaches the resolved
configuration; the delivered results array is empty and the log pairs
`"missingno"` with the sentinel. -/
theorem fetchManyDetails_result_set_witness :
    ({ queue := [], flights := [], results := [], cache := []
       log := [("missingno", none)] } : PoolState).results
      = ({ queue := [], flights := [], results := [], cache := []
           log := [("missingno", none)] } : PoolState).log.filterMap Prod.snd
    ∧ (({ queue := [], flights := [], results := [], cache := []
          log := [("missingno", none)] } : PoolState).log.map Prod.fst).Perm
        ["missingno"] := by
  have hstep1 : PoolStep (fun _ => none) (initPool ["missingno"] [])
      { queue := [], flights := [{ name := "missingno", result := none, fresh := true }]
        results := [], cache := [], log := [] } :=
    PoolStep.spawn (initPool ["missingno"] []) "missingno" [] rfl (by decide)
  have hstep2 : PoolStep (fun _ => none)
      { queue := [], flights := [{ name := "missingno", result := none, fresh := true }]
        results := [], cache := [], log := [] }
      ({ queue := [], flights := [], results := [], cache := []
         log := [("missingno", none)] } : PoolState) :=
    PoolStep.settle
      { queue := [], flights := [{ name := "missingno", result := none, fresh := true }]
        results := [], cache := [], log := [] }
      { name := "missingno", result := none, fresh := true } [] [] rfl
  exact fetchManyDetails_result_set (fun _ => none) ["missingno"] []
    { queue := [], flights := [], results := [], cache := []
      log := [("missingno", none)] }
    (Relation.ReflTransGen.tail (Relation.ReflTransGen.single hstep1) hstep2)
    (by decide)

/-- Claim C10: `fetchManyDetails` applied to the empty identifier
sequence resolves immediately with the empty sequence and issues no
detail fetch: the sequential run returns `([], cache, [])` (no request
events), and the initial pool configuration for `[]` already satisfies
the resolve guard `queue.length === 0 && active === 0` of `next()` with
an empty results array. -/
theorem fetchManyDetails_empty (oracle : String → Option Detail) (c : Cache) :
    fetchManyDetails oracle c [] = ([], c, [])
    ∧ resolvedState (initPool [] c) = true
    ∧ (initPool [] c).results = [] :=
  ⟨rfl, rfl, rfl⟩

end Pokeapi

namespace Pokeapi

theorem fetchManyDetails_length_le (o : String → Option Detail) (c : Cache)
    (ns : List String) : (fetchManyDetails o c ns).1.length ≤ ns.length := by
  induction ns generalizing c with
  | nil => simp [fetchManyDetails]
  | cons n rest ih =>
    simp only [fetchManyDetails, List.length_append, List.length_cons]
    have h1 : (fetchDetailSafely o c n).1.toList.length ≤ 1 := by
      cases (fetchDetailSafely o c n).1 <;> simp
    have h2 := ih (fetchDetailSafely o c n).2.1
    omega

theorem fetchListPage_length_le (api : Api) (c : Cache) (offset limit : Nat)
    (h : (api.listing limit offset).length ≤ limit) :
    (fetchListPage api c offset limit).1.length ≤ limit := by
  simp only [fetchListPage]
  refine le_trans (fetchManyDetails_length_le _ _ _) ?_
  simpa using h

theorem countTypeCatalogRequests_append (a b : List Event) :
    countTypeCatalogRequests (a ++ b)
      = countTypeCatalogRequests a + countTypeCatalogRequests b := by
  simp [countTypeCatalogRequests, List.filter_append]

theorem countInfoToasts_append (a b : List Event) :
    countInfoToasts (a ++ b) = countInfoToasts a + countInfoToasts b := by
  simp [countInfoToasts, List.filter_append]

theorem countCards_append (a b : List Event) :
    countCards (a ++ b) = countCards a + countCards b := by
  simp [countCards, List.filter_append]

theorem countTypeCatalogRequests_cards (l : List Detail) :
    countTypeCatalogRequests (l.map (fun d => Event.cardRendered d.id)) = 0 := by
  induction l with
  | nil => rfl
  | cons d t ih => simp [countTypeCatalogRequests, List.filter_cons]

theorem countTypeCatalogRequests_fetchMany (o : String → Option Detail)
    (ns : List String) : ∀ c : Cache,
    countTypeCatalogRequests (fetchManyDetails o c ns).2.2 = 0 := by
  induction ns with
  | nil => intro c; rfl
  | cons n rest ih =>
    intro c
    simp only [fetchManyDetails]
    rw [countTypeCatalogRequests_append, ih]
    cases hb : (fetchDetailSafely o c n).2.2 <;>
      simp [hb, countTypeCatalogRequests, List.filter_cons]

theorem finishRound_batch_nil (s : QueryState) (c : Cache) (e : List Event) (fp : Bool) :
    (finishRound s c [] e fp).batch = [] := by
  unfold finishRound
  simp

theorem finishRound_events_nil (s : QueryState) (c : Cache) (e : List Event) (fp : Bool) :
    (finishRound s c [] e fp).events = e ++ (if fp then [Event.emptyState] else []) := by
  unfold finishRound
  simp

theorem countTypeCatalogRequests_finishRound (s : QueryState) (c : Cache)
    (b : List Detail) (e : List Event) (fp : Bool) :
    countTypeCatalogRequests (finishRound s c b e fp).events
      = countTypeCatalogRequests e := by
  unfold finishRound
  split
  · cases fp <;>
      simp [countTypeCatalogRequests_append, countTypeCatalogRequests, List.filter_cons]
  · simp [countTypeCatalogRequests_append, countTypeCatalogRequests_cards]

end Pokeapi

namespace Pokeapi

/-- Claim C4: after a page round, `hasMore` is false exactly at the
mode's exhaustion condition: in list mode (with a listing endpoint that
honors the limit) exactly when the round returned fewer than `limit`
details; in type mode exactly when the cursor has reached the catalog
end; in search mode always. -/
theorem loadMorePage_hasMore_spec (api : Api) (c : Cache) (s : QueryState) (fp : Bool) :
    (s.mode = Mode.list → (api.listing s.limit s.offset).length ≤ s.limit →
      ((loadMorePage api c s fp).state.hasMore = false
        ↔ (loadMorePage api c s fp).batch.length < s.limit))
    ∧ (s.mode = Mode.type →
      ((loadMorePage api c s fp).state.hasMore = false
        ↔ (loadMorePage api c s fp).state.typeCatalog.length
            ≤ (loadMorePage api c s fp).state.typeCursor))
    ∧ (s.mode = Mode.search → (loadMorePage api c s fp).state.hasMore = false) := by
  refine ⟨?_, ?_, ?_⟩
  · intro hm hlim
    have hlen := fetchListPage_length_le api c s.offset s.limit hlim
    simp only [loadMorePage, hm]
    rw [finishRound_batch_length, finishRound_state]
    simp only [decide_eq_false_iff_not]
    omega
  · intro hm
    simp only [loadMorePage, hm]
    rw [finishRound_state]
    simp [Nat.not_lt]
  · intro hm
    simp only [loadMorePage, hm]
    rw [finishRound_state]

/-- Witness for C4: concrete list-, type- and search-mode rounds. -/
theorem loadMorePage_hasMore_witness :
    ((loadMorePage sampleApi [] sListState true).state.hasMore = false
      ↔ (loadMorePage sampleApi [] sListState true).batch.length < sListState.limit)
    ∧ ((loadMorePage sampleApi [] sTypeState true).state.hasMore = false
      ↔ (loadMorePage sampleApi [] sTypeState true).state.typeCatalog.length
          ≤ (loadMorePage sampleApi [] sTypeState true).state.typeCursor)
    ∧ (loadMorePage sampleApi [] sSearchState true).state.hasMore = false :=
  ⟨(loadMorePage_hasMore_spec sampleApi [] sListState true).1 rfl (by decide),
   (loadMorePage_hasMore_spec sampleApi [] sTypeState true).2.1 rfl,
   (loadMorePage_hasMore_spec sampleApi [] sSearchState true).2.2 rfl⟩

/-- Claim C5: a list-mode page round via `fetchListPage` returns at most
`limit` entities (when the listing endpoint honors the limit), and the
round advances the stored offset by exactly `limit` regardless of how
many entities were returned. -/
theorem fetchListPage_spec (api : Api) (c : Cache) (s : QueryState) (fp : Bool)
    (hm : s.mode = Mode.list) (hlim : (api.listing s.limit s.offset).length ≤ s.limit) :
    (fetchListPage api c s.offset s.limit).1.length ≤ s.limit
    ∧ (loadMorePage api c s fp).state.offset = s.offset + s.limit := by
  refine ⟨fetchListPage_length_le api c s.offset s.limit hlim, ?_⟩
  simp only [loadMorePage, hm]
  rw [finishRound_state]

/-- Witness for C5: a concrete round where the listing returns only one
of the two requested entries; the offset still advances by the full
limit. -/
theorem fetchListPage_spec_witness :
    (fetchListPage sampleApi [] 0 2).1.length ≤ 2
    ∧ (loadMorePage sampleApi [] sListState true).state.offset = 0 + 2 :=
  fetchListPage_spec sampleApi [] sListState true rfl (by decide)

/-- Claim C6: in type mode, a round with no stored catalog issues
exactly one category-membership request; a round with a stored
(non-empty) catalog issues zero category-membership requests, keeps the
stored catalog, and advances the cursor by the length of the locally
taken slice. -/
theorem typeMode_catalog_requests_spec (api : Api) (c : Cache) (s : QueryState) (fp : Bool)
    (hm : s.mode = Mode.type) :
    (s.typeCatalog = [] →
      countTypeCatalogRequests (loadMorePage api c s fp).events = 1)
    ∧ (s.typeCatalog ≠ [] →
      countTypeCatalogRequests (loadMorePage api c s fp).events = 0
      ∧ (loadMorePage api c s fp).state.typeCatalog = s.typeCatalog
      ∧ (loadMorePage api c s fp).state.typeCursor
          = s.typeCursor + ((s.typeCatalog.drop s.typeCursor).take s.limit).length) := by
  constructor
  · intro hcat
    simp only [loadMorePage, hm, hcat]
    rw [countTypeCatalogRequests_finishRound, countTypeCatalogRequests_append,
      countTypeCatalogRequests_fetchMany]
    rfl
  · intro hcat
    have hlen : ¬ s.typeCatalog.length = 0 := by
      simpa [List.length_eq_zero] using hcat
    constructor
    · simp only [loadMorePage, hm, if_neg hlen]
      rw [countTypeCatalogRequests_finishRound, countTypeCatalogRequests_append,
        countTypeCatalogRequests_fetchMany]
      rfl
    · constructor <;>
        · simp only [loadMorePage, hm, if_neg hlen]
          rw [finishRound_state]

/-- Witness for C6: with `sTypeState` (no stored catalog) one catalog
request is issued; with `sTypeStateLoaded` (stored one-entry catalog,
page size 1) none is issued, the catalog is kept, and the cursor
advances by the slice length. -/
theorem typeMode_catalog_requests_witness :
    countTypeCatalogRequests (loadMorePage sampleApi [] sTypeState true).events = 1
    ∧ countTypeCatalogRequests (loadMorePage sampleApi [] sTypeStateLoaded false).events = 0
    ∧ (loadMorePage sampleApi [] sTypeStateLoaded false).state.typeCatalog
        = sTypeStateLoaded.typeCatalog
    ∧ (loadMorePage sampleApi [] sTypeStateLoaded false).state.typeCursor
        = sTypeStateLoaded.typeCursor
          + ((sTypeStateLoaded.typeCatalog.drop sTypeStateLoaded.typeCursor).take
              sTypeStateLoaded.limit).length := by
  have h2 := (typeMode_catalog_requests_spec sampleApi [] sTypeStateLoaded false rfl).2
    (by decide)
  exact ⟨(typeMode_catalog_requests_spec sampleApi [] sTypeState true rfl).1 rfl,
    h2.1, h2.2.1, h2.2.2⟩

/-- Claim C9: in search mode with an active category filter, when the
looked-up entity resolves but lacks that category, the round yields an
empty batch, renders zero cards, shows exactly one informational toast,
and leaves `hasMore` false. -/
theorem search_type_mismatch_spec (api : Api) (c : Cache) (s : QueryState) (fp : Bool)
    (p : Detail)
    (hm : s.mode = Mode.search) (ht : s.currentType ≠ "")
    (hp : (fetchDetailSafely api.detail c s.currentQ).1 = some p)
    (hmis : p.types.any (fun t => t.type.name == s.currentType) = false) :
    (loadMorePage api c s fp).batch = []
    ∧ countInfoToasts (loadMorePage api c s fp).events = 1
    ∧ countCards (loadMorePage api c s fp).events = 0
    ∧ (loadMorePage api c s fp).state.hasMore = false := by
  refine ⟨?_, ?_, ?_, ?_⟩
  · simp [loadMorePage, hm, hp, ht, hmis, finishRound_batch_nil]
  · cases hb : (fetchDetailSafely api.detail c s.currentQ).2.2 <;> cases fp <;>
      simp [loadMorePage, hm, hp, ht, hmis, hb, finishRound_events_nil,
        countInfoToasts_append, countInfoToasts, List.filter_cons, List.filter_append]
  · cases hb : (fetchDetailSafely api.detail c s.currentQ).2.2 <;> cases fp <;>
      simp [loadMorePage, hm, hp, ht, hmis, hb, finishRound_events_nil,
        countCards_append, countCards, List.filter_cons, List.filter_append]
  · simp only [loadMorePage, hm]
    rw [finishRound_state]

/-- Witness for C9: searching `"pikachu"` with the `"grass"` filter
active in `sSearchState` yields an empty batch, one informational
toast, zero cards, and `hasMore = false`. -/
theorem search_type_mismatch_witness :
    (loadMorePage sampleApi [] sSearchState true).batch = []
    ∧ countInfoToasts (loadMorePage sampleApi [] sSearchState true).events = 1
    ∧ countCards (loadMorePage sampleApi [] sSearchState true).events = 0
    ∧ (loadMorePage sampleApi [] sSearchState true).state.hasMore = false :=
  search_type_mismatch_spec sampleApi [] sSearchState true pikachu rfl
    (by decide) (by decide) (by decide)

end Pokeapi
